import Mathlib

/-!
Verification development for `log_odds.py` (catfish_odds).

The script's core is a scoring engine plus a log-maintenance pipeline:
load a JSON log, estimate barometric stability from daily pressure means,
compute a weighted score, prune records older than 720 hours, merge or
append the new observation by clock hour, and atomically persist.

Shallow embedding conventions:
* Timestamps are modelled as natural numbers counting seconds on the
  proleptic UTC timeline (each day exactly 86400 s, as in Python's
  `datetime`).  Parsing an ISO timestamp either yields such a number or
  raises; an `Observation.time` of `none` stands for a string
  `datetime.fromisoformat` rejects, and a raised exception is embedded
  as `Except.error`.
* A JSON field that is `null`/absent is `none`; `p_now` is `Option ℚ`
  because the stability code reads it with `.get` and may see `None`.
* Real arithmetic is over `ℚ`; `round(x, 1)` is modelled as rounding to
  the nearest multiple of 1/10 (tie-breaking at halves is immaterial to
  every property proved here).
-/

namespace CatfishOdds

/-- One logged sample, as stored in the JSON array (src/log_odds.py,
`entry = {"time": .., "p_now": .., "T_now": .., "L_now": .., "score": ..}`).
`time` is the parse result of the stored ISO string (`none` = unparsable);
`p_now` is optional because the stability code tolerates its absence
syntactically (`e.get("p_now")`). -/
structure Observation where
  time : Option Nat
  p_now : Option ℚ
  T_now : ℚ
  L_now : ℚ
  score : ℚ
deriving DecidableEq, Repr

/-- `KEEP_HOURS = 30 * 24` (src/log_odds.py line 31). -/
def KEEP_HOURS : Nat := 30 * 24

/-- `STABILITY_THRESHOLD = 2.0` (line 32). -/
def STABILITY_THRESHOLD : ℚ := 2

/-- `STABILITY_DAYS = 4` (line 33). -/
def STABILITY_DAYS : Nat := 4

/-- The UTC calendar date of a timestamp: its day number. -/
def dateOf (t : Nat) : Nat := t / 86400

/-- The UTC calendar hour of a timestamp: date and hour-of-day jointly,
i.e. the number of whole hours since the epoch. -/
def hourKey (t : Nat) : Nat := t / 3600

/-- `datetime.hour`: the hour-of-day (0..23) of a timestamp. -/
def hourOfDay (t : Nat) : Nat := t / 3600 % 24

/-- The timestamp of a record, defaulting to 0; meaningful only for
records whose `time` parsed (`time ≠ none`). -/
def tOf (e : Observation) : Nat := e.time.getD 0

/-- `datetime.datetime.fromisoformat(e["time"]...)`: yields the parsed
timestamp or raises `ValueError`. -/
def parseTime (e : Observation) : Except String Nat :=
  match e.time with
  | some t => .ok t
  | none => .error "ValueError: unparsable time"

/-- The list comprehension of line 157, element by element:
`[e for e in data if fromisoformat(e["time"]...) >= cutoff]`.
The comprehension evaluates left to right and propagates the first
`ValueError`. -/
def pruneAux (cutoff : Nat) : List Observation → Except String (List Observation)
  | [] => .ok []
  | e :: es =>
    match parseTime e with
    | .error msg => .error msg
    | .ok t =>
      match pruneAux cutoff es with
      | .error msg => .error msg
      | .ok rest => if cutoff ≤ t then .ok (e :: rest) else .ok rest

/-- Lines 156-157: `cutoff = now - timedelta(hours=KEEP_HOURS)` and the
filtering comprehension. -/
def prune (now : Nat) (data : List Observation) : Except String (List Observation) :=
  pruneAux (now - KEEP_HOURS * 3600) data

/-- Lines 158-161: if `data` is non-empty and the last record's parsed
timestamp has `.hour` equal to the current UTC `.hour`, the last record
is overwritten by `entry` (`data[-1] = entry`); otherwise `entry` is
appended. -/
def mergeOrAppend (now : Nat) (entry : Observation) (data : List Observation) :
    Except String (List Observation) :=
  match data.getLast? with
  | none => .ok (data ++ [entry])
  | some last =>
    match parseTime last with
    | .error msg => .error msg
    | .ok t =>
      if hourOfDay t = hourOfDay now then .ok (data.dropLast ++ [entry])
      else .ok (data ++ [entry])

/-- The write step of `main` (lines 156-161): prune, then merge or append. -/
def updateLog (now : Nat) (entry : Observation) (data : List Observation) :
    Except String (List Observation) :=
  match prune now data with
  | .error msg => .error msg
  | .ok pruned => mergeOrAppend now entry pruned

/-- `round(x, 1)` on the model's rationals: the nearest multiple of 1/10. -/
def round1 (x : ℚ) : ℚ := (round (x * 10) : ℤ) / 10

/-- `compute_score` (lines 108-113), verbatim: three clamped sub-scores,
a weighted sum with the stability fraction `D`, scaled to a percentage
and rounded to one decimal. -/
def compute_score (p_now p_prev T_now L_now D : ℚ) : ℚ :=
  let P := max 0 (1 - |p_now - p_prev| / 10)
  let L := max 0 (1 - |L_now - 7| / 5)
  let T := max 0 (1 - |T_now - 75| / 15)
  let S := 0.30 * D + 0.25 * P + 0.20 * L + 0.25 * T
  round1 (S * 100)

/-- The per-date pressure lists built by lines 86-95: a record whose
`time` fails to parse is skipped (`except: continue`); otherwise its
`p_now` (possibly `None`) is appended to the bucket of its UTC date.
`pressuresOn entries d` is the bucket `pressures_by_date[d]`, in entry
order ( `[]` when the key is absent). -/
def pressuresOn (entries : List Observation) (d : Nat) : List (Option ℚ) :=
  entries.filterMap fun e =>
    match e.time with
    | some t => if dateOf t = d then some e.p_now else none
    | none => none

/-- Python's `sum(vals)`: adds left to right and raises `TypeError` at
the first `None`. -/
def sumOpt : List (Option ℚ) → Except String ℚ
  | [] => .ok 0
  | none :: _ => .error "TypeError: unsupported operand"
  | some p :: rest => (sumOpt rest).map fun s => p + s

/-- Line 101: `sum(vals)/len(vals) if vals else None`. -/
def meanOf (vals : List (Option ℚ)) : Except String (Option ℚ) :=
  match vals with
  | [] => .ok none
  | _ => (sumOpt vals).map fun s => some (s / (vals.length : ℚ))

/-- Lines 98-101: the `avgs` list, one optional daily mean per date, in
the order the dates are traversed (oldest first). -/
def avgsFor (entries : List Observation) : List Nat → Except String (List (Option ℚ))
  | [] => .ok []
  | d :: ds =>
    match meanOf (pressuresOn entries d) with
    | .error msg => .error msg
    | .ok a =>
      match avgsFor entries ds with
      | .error msg => .error msg
      | .ok rest => .ok (a :: rest)

/-- Line 104's test on one adjacent pair of daily means. -/
def stablePair (a b : Option ℚ) : Bool :=
  match a, b with
  | some x, some y => decide (|y - x| ≤ STABILITY_THRESHOLD)
  | _, _ => false

/-- Lines 102-105: count the stable adjacent pairs of `avgs`. -/
def countStable : List (Option ℚ) → Nat
  | a :: b :: rest => (if stablePair a b then 1 else 0) + countStable (b :: rest)
  | _ => 0

/-- Lines 96-97, reversed at line 99: the `STABILITY_DAYS` calendar
dates ending yesterday, oldest first, for a given current date. -/
def pastDatesOldestFirst (today : Nat) : List Nat :=
  ((List.range STABILITY_DAYS).map fun i => today - (i + 1)).reverse

/-- `compute_barometric_stability_local` (lines 83-106).  `today` is the
current UTC date (`datetime.now(timezone.utc).date()`).  An empty
history short-circuits to 0.0 before any record is examined; a `None`
pressure reached by `sum` raises, embedded as `Except.error`. -/
def compute_barometric_stability_local (today : Nat) (entries : List Observation) :
    Except String ℚ :=
  if entries.isEmpty then .ok 0
  else
    (avgsFor entries (pastDatesOldestFirst today)).map fun avgs =>
      (countStable avgs : ℚ) / (STABILITY_DAYS : ℚ)

/-! ### Persistence: `load_existing_data` and `save_data`

The filesystem and JSON layers are environmental; they are embedded as
follows.  A JSON value is the inductive `Jval`; what `load_existing_data`
can encounter at its path is a `LoadState`: the file is absent
(`os.path.exists` false), opening/reading raises, `json.load` raises, or
a JSON value is produced.  The `try/except: pass; return []` of lines
116-123 makes every raising path return `[]`. -/

/-- A parsed JSON value. -/
inductive Jval where
  | null
  | bool (b : Bool)
  | num (q : ℚ)
  | str (s : String)
  | arr (xs : List Jval)
  | obj (fields : List (String × Jval))

/-- What the store can present to `load_existing_data`. -/
inductive LoadState where
  | absent
  | unreadable
  | notJson
  | content (j : Jval)

/-- `load_existing_data` (lines 115-123): returns the parsed value when
it is a JSON array (`isinstance(data, list)`), and `[]` in every other
case; every exception path is caught. -/
def load_existing_data : LoadState → List Jval
  | .content (.arr xs) => xs
  | _ => []

/-- First binding in an association list of JSON object fields
(Python dict lookup for our purposes). -/
def getField : List (String × Jval) → String → Option Jval
  | [], _ => none
  | (k, v) :: rest, key => if k = key then some v else getField rest key

/-- Whether an optional JSON value is a number. -/
def isNum : Option Jval → Bool
  | some (.num _) => true
  | _ => false

/-- Modelled from the spec (section 3 and 6): a structurally valid
Observation object is a JSON object with a string `time` field and
numeric `p_now`, `T_now`, `L_now`, `score` fields.  The source has no
such validation; this definition exists to state what the spec's
"array of Observation objects" means. -/
def isObservationJson : Jval → Bool
  | .obj fs =>
    (match getField fs "time" with | some (.str _) => true | _ => false)
      && isNum (getField fs "p_now") && isNum (getField fs "T_now")
      && isNum (getField fs "L_now") && isNum (getField fs "score")
  | _ => false

/-- A flat file store: path → content. -/
def FS : Type := String → Option String

/-- Writing (creating or truncating-and-writing) a file. -/
def fsWrite (fs : FS) (p c : String) : FS :=
  fun q => if q = p then some c else fs q

/-- `os.replace(src, dst)`: atomic rename; `dst` takes `src`'s content,
`src` disappears. -/
def fsReplace (fs : FS) (src dst : String) : FS :=
  fun q => if q = dst then fs src else if q = src then none else fs q

/-- `tmp = path + '.tmp'` (line 127). -/
def tmpPath (path : String) : String := path ++ ".tmp"

/-- `save_data` (lines 125-130) as its sequence of filesystem effects:
`os.makedirs` (no file content change), the successive states of the
temporary file as `open(tmp,'w')` truncates it and `json.dump` streams
into it (`contents` lists those states), and finally the atomic
`os.replace(tmp, path)`.  A failure during `save_data` is running only
a proper prefix of these steps. -/
def saveSteps (path : String) (contents : List String) : List (FS → FS) :=
  (fun fs => fs) ::
    (contents.map fun c => fun fs => fsWrite fs (tmpPath path) c)
      ++ [fun fs => fsReplace fs (tmpPath path) path]

/-- Run the first `k` steps of a step list. -/
def applySteps (steps : List (FS → FS)) (k : Nat) (fs : FS) : FS :=
  (steps.take k).foldl (fun s f => f s) fs

/-! ### Helper lemmas -/

theorem round_le_of_le {x y : ℚ} (h : x ≤ y) : round x ≤ round y := by
  rw [round_eq, round_eq]
  exact Int.floor_mono (by linarith)

theorem round1_mem {x : ℚ} (h0 : 0 ≤ x) (h1 : x ≤ 100) :
    0 ≤ round1 x ∧ round1 x ≤ 100 ∧ ∃ k : ℤ, round1 x = (k : ℚ) / 10 := by
  have hb0 : (0 : ℤ) ≤ round (x * 10) := by
    have h := round_le_of_le (x := 0) (y := x * 10) (by linarith)
    simpa using h
  have hb1 : round (x * 10) ≤ 1000 := by
    have h := round_le_of_le (x := x * 10) (y := 1000) (by linarith)
    simpa using h
  refine ⟨?_, ?_, round (x * 10), rfl⟩
  · unfold round1
    have : (0 : ℚ) ≤ (round (x * 10) : ℚ) := by exact_mod_cast hb0
    linarith
  · unfold round1
    have : ((round (x * 10) : ℤ) : ℚ) ≤ 1000 := by exact_mod_cast hb1
    linarith

theorem compute_score_eq (p_now p_prev T_now L_now D : ℚ) :
    compute_score p_now p_prev T_now L_now D =
      round1 ((0.30 * D + 0.25 * max 0 (1 - |p_now - p_prev| / 10)
        + 0.20 * max 0 (1 - |L_now - 7| / 5)
        + 0.25 * max 0 (1 - |T_now - 75| / 15)) * 100) := rfl

/-! ### Claims -/

/-- Claim C2, counterexample: `compute_score` does not restrict `D`, and
with `D = 2` (and otherwise ideal inputs) it returns 130.0, outside
[0, 100].  The claim's "no precondition restricting D" is false of the
code. -/
theorem c2_counterexample :
    compute_score 0 0 75 7 2 = 130 ∧ ¬ compute_score 0 0 75 7 2 ≤ 100 := by
  have harg : ((0.30 * 2 + 0.25 * max 0 (1 - |(0 : ℚ) - 0| / 10)
      + 0.20 * max 0 (1 - |(7 : ℚ) - 7| / 5)
      + 0.25 * max 0 (1 - |(75 : ℚ) - 75| / 15)) * 100) = 130 := by
    norm_num
  have hval : compute_score 0 0 75 7 2 = 130 := by
    rw [compute_score_eq, harg]
    unfold round1
    rw [show ((130 : ℚ) * 10) = ((1300 : ℤ) : ℚ) by norm_num, round_intCast]
    norm_num
  exact ⟨hval, by rw [hval]; norm_num⟩

/-- Claim C2, amended: `compute_score` is a pure total function, and
whenever the stability fraction `D` lies in [0,1] (as every value the
program itself passes does), its output lies in [0, 100] and is a
multiple of 1/10 (one decimal place). -/
theorem c2_score_bounded_amended (p_now p_prev T_now L_now D : ℚ)
    (hD0 : 0 ≤ D) (hD1 : D ≤ 1) :
    0 ≤ compute_score p_now p_prev T_now L_now D ∧
      compute_score p_now p_prev T_now L_now D ≤ 100 ∧
      ∃ k : ℤ, compute_score p_now p_prev T_now L_now D = (k : ℚ) / 10 := by
  rw [compute_score_eq]
  have habs1 : (0 : ℚ) ≤ |p_now - p_prev| := abs_nonneg _
  have habs2 : (0 : ℚ) ≤ |L_now - 7| := abs_nonneg _
  have habs3 : (0 : ℚ) ≤ |T_now - 75| := abs_nonneg _
  have hP0 : (0 : ℚ) ≤ max 0 (1 - |p_now - p_prev| / 10) := le_max_left _ _
  have hP1 : max 0 (1 - |p_now - p_prev| / 10) ≤ 1 := max_le (by norm_num) (by linarith)
  have hL0 : (0 : ℚ) ≤ max 0 (1 - |L_now - 7| / 5) := le_max_left _ _
  have hL1 : max 0 (1 - |L_now - 7| / 5) ≤ 1 := max_le (by norm_num) (by linarith)
  have hT0 : (0 : ℚ) ≤ max 0 (1 - |T_now - 75| / 15) := le_max_left _ _
  have hT1 : max 0 (1 - |T_now - 75| / 15) ≤ 1 := max_le (by norm_num) (by linarith)
  exact round1_mem (by nlinarith) (by nlinarith)

/-- Witness for the amended C2 theorem at a concrete input. -/
theorem c2_witness :
    0 ≤ compute_score 0 0 75 7 0 ∧ compute_score 0 0 75 7 0 ≤ 100 ∧
      ∃ k : ℤ, compute_score 0 0 75 7 0 = (k : ℚ) / 10 :=
  c2_score_bounded_amended 0 0 75 7 0 (le_refl 0) zero_le_one

/-- Claim C10: a record whose timestamp parses but whose `p_now` is
absent reaches the `sum`-over-`None` error branch of the stability
computation (a `TypeError`), whereas a record with an unparsable
timestamp is skipped silently and the computation succeeds. -/
theorem c10_missing_pressure_error :
    compute_barometric_stability_local 10 [⟨some (9 * 86400), none, 0, 0, 0⟩] =
        .error "TypeError: unsupported operand" ∧
      compute_barometric_stability_local 10 [⟨none, none, 0, 0, 0⟩] = .ok 0 := by
  refine ⟨rfl, ?_⟩
  have h : compute_barometric_stability_local 10 [⟨none, none, 0, 0, 0⟩]
      = .ok ((countStable [none, none, none, none] : ℚ) / (STABILITY_DAYS : ℚ)) := rfl
  have h2 : countStable ([none, none, none, none] : List (Option ℚ)) = 0 := rfl
  rw [h, h2]
  simp

/-- Claim C5, counterexample: a persisted JSON array whose element is
not an Observation object (here the number 1) is returned as-is by
`load_existing_data`, not replaced by the empty sequence as the claim's
"structurally invalid (not an array of Observation objects) → empty"
requires. -/
theorem c5_counterexample :
    load_existing_data (.content (.arr [.num 1])) = [.num 1] ∧
      isObservationJson (.num 1) = false ∧ ([Jval.num 1] : List Jval) ≠ [] :=
  ⟨rfl, rfl, List.cons_ne_nil _ _⟩

/-- Claim C5, amended: `load_existing_data` never raises; it returns the
empty sequence when the file is absent, unreadable, not valid JSON, or
valid JSON that is not an array — but a JSON array is returned without
validating its elements against the Observation structure. -/
theorem c5_load_never_raises_amended :
    load_existing_data .absent = [] ∧
      load_existing_data .unreadable = [] ∧
      load_existing_data .notJson = [] ∧
      (∀ xs : List Jval, load_existing_data (.content (.arr xs)) = xs) ∧
      ∀ j : Jval, (∀ xs : List Jval, j ≠ .arr xs) → load_existing_data (.content j) = [] := by
  refine ⟨rfl, rfl, rfl, fun _ => rfl, fun j hj => ?_⟩
  cases j with
  | arr xs => exact absurd rfl (hj xs)
  | _ => rfl

/-- Witness for the amended C5 theorem at a concrete input. -/
theorem c5_witness : load_existing_data (.content .null) = [] :=
  c5_load_never_raises_amended.2.2.2.2 .null fun _ h => Jval.noConfusion h

/-- Claim C1, counterexample: the merge step compares only `.hour`.
With the last record at timestamp 0 (hour 0 of day 0) and the current
time 86400 (hour 0 of day 1) — different UTC calendar hours — the last
record is replaced by the new entry instead of being appended to. -/
theorem c1_counterexample :
    mergeOrAppend 86400 ⟨some 86400, none, 0, 0, 0⟩ [⟨some 0, none, 0, 0, 1⟩] =
        .ok [⟨some 86400, none, 0, 0, 0⟩] ∧
      dateOf 0 ≠ dateOf 86400 ∧ hourOfDay 0 = hourOfDay 86400 :=
  ⟨rfl, by decide, rfl⟩

/-- The merge step on a non-empty history whose last record's timestamp
parses: replace exactly when the hour-of-day matches, append otherwise. -/
theorem mergeOrAppend_of_parsed (now : Nat) (entry : Observation)
    (data : List Observation) (t : Nat) (hne : data ≠ [])
    (ht : (data.getLast hne).time = some t) :
    mergeOrAppend now entry data =
      .ok (if hourOfDay t = hourOfDay now then data.dropLast ++ [entry]
        else data ++ [entry]) := by
  unfold mergeOrAppend
  rw [List.getLast?_eq_getLast_of_ne_nil hne]
  simp only [parseTime, ht]
  rw [apply_ite (Except.ok (ε := String))]

/-- Claim C1, amended: for a non-empty history whose last record's
timestamp parses, the merge step replaces the last record exactly when
that record's UTC hour-of-day equals the current UTC hour-of-day —
regardless of the date — and appends otherwise. -/
theorem c1_merge_by_hour_of_day_amended (now : Nat) (entry : Observation)
    (data : List Observation) (t : Nat) (hne : data ≠ [])
    (ht : (data.getLast hne).time = some t) :
    mergeOrAppend now entry data =
      .ok (if hourOfDay t = hourOfDay now then data.dropLast ++ [entry]
        else data ++ [entry]) :=
  mergeOrAppend_of_parsed now entry data t hne ht

/-- Witness for the amended C1 theorem at a concrete input (appending
branch: hour 0 vs hour 2). -/
theorem c1_witness :
    mergeOrAppend 7200 ⟨some 7200, none, 0, 0, 0⟩ [⟨some 0, none, 0, 0, 0⟩] =
      .ok (if hourOfDay 0 = hourOfDay 7200 then
          ([(⟨some 0, none, 0, 0, 0⟩ : Observation)]).dropLast ++ [⟨some 7200, none, 0, 0, 0⟩]
        else [(⟨some 0, none, 0, 0, 0⟩ : Observation)] ++ [⟨some 7200, none, 0, 0, 0⟩]) :=
  c1_merge_by_hour_of_day_amended 7200 ⟨some 7200, none, 0, 0, 0⟩
    [⟨some 0, none, 0, 0, 0⟩] 0 (List.cons_ne_nil _ _) rfl

theorem countStable_lt_length (l : List (Option ℚ)) (h : l ≠ []) :
    countStable l < l.length := by
  induction l with
  | nil => exact absurd rfl h
  | cons a rest ih =>
    cases rest with
    | nil => simp [countStable]
    | cons b rest2 =>
      have hr := ih (List.cons_ne_nil _ _)
      rw [show countStable (a :: b :: rest2)
        = (if stablePair a b then 1 else 0) + countStable (b :: rest2) from rfl]
      simp only [List.length_cons] at hr ⊢
      split <;> omega

theorem avgsFor_length (entries : List Observation) :
    ∀ (ds : List Nat) (l : List (Option ℚ)),
      avgsFor entries ds = .ok l → l.length = ds.length := by
  intro ds
  induction ds with
  | nil =>
    intro l h
    injection h with h'
    rw [← h']
    rfl
  | cons d ds ih =>
    intro l h
    unfold avgsFor at h
    cases hm : meanOf (pressuresOn entries d) with
    | error msg => rw [hm] at h; cases h
    | ok a =>
      rw [hm] at h
      cases ha : avgsFor entries ds with
      | error msg => rw [ha] at h; cases h
      | ok rest =>
        rw [ha] at h
        injection h with h'
        rw [← h']
        simp [ih rest ha]

/-- Claim C9: every stability value the computation can return is one of
0, 1/4, 1/2, 3/4; in particular 1.0 is unreachable, since at most
`STABILITY_DAYS - 1 = 3` adjacent pairs exist among the 4 daily means
while the denominator is `STABILITY_DAYS = 4`. -/
theorem c9_stability_values (today : Nat) (entries : List Observation) (v : ℚ)
    (h : compute_barometric_stability_local today entries = .ok v) :
    v = 0 ∨ v = 1/4 ∨ v = 1/2 ∨ v = 3/4 := by
  unfold compute_barometric_stability_local at h
  by_cases he : entries.isEmpty
  · rw [if_pos he] at h
    exact Or.inl (Except.ok.inj h).symm
  · rw [if_neg he] at h
    cases ha : avgsFor entries (pastDatesOldestFirst today) with
    | error msg => rw [ha] at h; cases h
    | ok avgs =>
      rw [ha] at h
      have hv : (countStable avgs : ℚ) / (STABILITY_DAYS : ℚ) = v := Except.ok.inj h
      have hlen : avgs.length = 4 := by
        have hl := avgsFor_length entries (pastDatesOldestFirst today) avgs ha
        simpa [pastDatesOldestFirst, STABILITY_DAYS] using hl
      have hne2 : avgs ≠ [] := by
        intro hnil
        rw [hnil] at hlen
        cases hlen
      have hlt : countStable avgs < 4 := by
        have hb := countStable_lt_length avgs hne2
        omega
      rw [← hv]
      set n := countStable avgs with hn
      interval_cases n <;> norm_num [STABILITY_DAYS]

/-- Witness for the C9 theorem at a concrete input (empty history). -/
theorem c9_witness : (0 : ℚ) = 0 ∨ (0 : ℚ) = 1/4 ∨ (0 : ℚ) = 1/2 ∨ (0 : ℚ) = 3/4 :=
  c9_stability_values 10 [] 0 rfl

/-- Claim C8: whenever each of the 4 trailing calendar dates ending
yesterday has a defined daily mean pressure and those means are all the
same value, the stability estimate is 3/4 = 0.75: all 3 adjacent pairs
are stable, divided by `STABILITY_DAYS = 4`. -/
theorem c8_stability_three_quarters (today : Nat) (entries : List Observation) (m : ℚ)
    (hne : entries ≠ [])
    (hmeans : ∀ d ∈ pastDatesOldestFirst today,
      meanOf (pressuresOn entries d) = .ok (some m)) :
    compute_barometric_stability_local today entries = .ok (3/4) := by
  have hdates : pastDatesOldestFirst today
      = [today - 4, today - 3, today - 2, today - 1] := rfl
  have h1 := hmeans (today - 4) (by rw [hdates]; simp)
  have h2 := hmeans (today - 3) (by rw [hdates]; simp)
  have h3 := hmeans (today - 2) (by rw [hdates]; simp)
  have h4 := hmeans (today - 1) (by rw [hdates]; simp)
  have hm4 : avgsFor entries (pastDatesOldestFirst today)
      = .ok [some m, some m, some m, some m] := by
    rw [hdates]
    simp [avgsFor, h1, h2, h3, h4]
  unfold compute_barometric_stability_local
  rw [if_neg (by simpa [List.isEmpty_iff] using hne), hm4]
  have hsp : stablePair (some m) (some m) = true := by
    simp [stablePair, STABILITY_THRESHOLD]
  have hcount : countStable [some m, some m, some m, some m] = 3 := by
    simp [countStable, hsp]
  show Except.ok ((countStable [some m, some m, some m, some m] : ℚ)
    / (STABILITY_DAYS : ℚ)) = _
  rw [hcount]
  norm_num [STABILITY_DAYS]

/-- Witness for the C8 theorem: four records on the four dates before
day 10, all with pressure 5. -/
theorem c8_witness :
    compute_barometric_stability_local 10
      [⟨some (6 * 86400), some 5, 0, 0, 0⟩, ⟨some (7 * 86400), some 5, 0, 0, 0⟩,
        ⟨some (8 * 86400), some 5, 0, 0, 0⟩, ⟨some (9 * 86400), some 5, 0, 0, 0⟩]
      = .ok (3/4) :=
  c8_stability_three_quarters 10 _ 5 (List.cons_ne_nil _ _)
    (by
      intro d hd
      fin_cases hd <;>
        simp [meanOf, pressuresOn, sumOpt, dateOf, Except.map])

/-- The pruning comprehension, when every timestamp parses, keeps
exactly the records at or after the cutoff, in their original order. -/
theorem pruneAux_eq_filter (cutoff : Nat) (data : List Observation)
    (hp : ∀ e ∈ data, e.time ≠ none) :
    pruneAux cutoff data = .ok (data.filter fun e => decide (cutoff ≤ tOf e)) := by
  induction data with
  | nil => rfl
  | cons e es ih =>
    have he : e.time ≠ none := hp e (List.mem_cons_self e es)
    obtain ⟨t, ht⟩ := Option.ne_none_iff_exists'.mp he
    have ihe := ih fun x hx => hp x (List.mem_cons_of_mem _ hx)
    have htOf : tOf e = t := by simp [tOf, ht]
    unfold pruneAux
    simp only [parseTime, ht, ihe]
    by_cases hc : cutoff ≤ t
    · rw [if_pos hc]
      simp [List.filter_cons, htOf, hc]
    · rw [if_neg hc]
      simp [List.filter_cons, htOf, hc]

/-- Claim C3: for every history whose timestamps parse, pruning removes
exactly the records with `time < now - 720h`; a record exactly at the
cutoff is retained (the comparison is `>= cutoff`), and the relative
order of retained records is preserved (the result is a filter of the
input). -/
theorem c3_prune_exact (now : Nat) (data : List Observation)
    (hp : ∀ e ∈ data, e.time ≠ none) :
    prune now data
      = .ok (data.filter fun e => decide (now - KEEP_HOURS * 3600 ≤ tOf e)) :=
  pruneAux_eq_filter _ data hp

/-- Witness for the C3 theorem: cutoff is 100; records at 99 (pruned),
100 (boundary, kept) and 101 (kept). -/
theorem c3_witness :
    prune (KEEP_HOURS * 3600 + 100)
      [⟨some 99, none, 0, 0, 0⟩, ⟨some 100, none, 0, 0, 0⟩, ⟨some 101, none, 0, 0, 0⟩]
      = .ok ([⟨some 99, none, 0, 0, 0⟩, ⟨some 100, none, 0, 0, 0⟩,
          ⟨some 101, none, 0, 0, 0⟩].filter
        fun e => decide (KEEP_HOURS * 3600 + 100 - KEEP_HOURS * 3600 ≤ tOf e)) :=
  c3_prune_exact (KEEP_HOURS * 3600 + 100) _ (by decide)

theorem pruneAux_error_of_unparsable (cutoff : Nat) :
    ∀ (l1 : List Observation) (e : Observation) (l2 : List Observation),
      e.time = none →
      pruneAux cutoff (l1 ++ e :: l2) = .error "ValueError: unparsable time" := by
  intro l1
  induction l1 with
  | nil =>
    intro e l2 ht
    simp [pruneAux, parseTime, ht]
  | cons a l1 ih =>
    intro e l2 ht
    cases hta : a.time with
    | none => simp [pruneAux, parseTime, hta]
    | some t => simp [pruneAux, parseTime, hta, ih e l2 ht]

theorem pressuresOn_unparsable (e : Observation) (l1 l2 : List Observation)
    (ht : e.time = none) (d : Nat) :
    pressuresOn (l1 ++ e :: l2) d = pressuresOn (l1 ++ l2) d := by
  simp [pressuresOn, List.filterMap_append, List.filterMap_cons, ht]

theorem avgsFor_unparsable (e : Observation) (l1 l2 : List Observation)
    (ht : e.time = none) :
    ∀ ds : List Nat, avgsFor (l1 ++ e :: l2) ds = avgsFor (l1 ++ l2) ds := by
  intro ds
  induction ds with
  | nil => rfl
  | cons d ds ih =>
    unfold avgsFor
    rw [pressuresOn_unparsable e l1 l2 ht d, ih]

/-- Claim C6, counterexample: a record with an unparsable timestamp is
not processed or silently dropped by the prune and merge steps — both
raise (`ValueError` propagates and the run fails), unlike the stability
computation, which skips the record. -/
theorem c6_counterexample :
    prune 100 [⟨none, none, 0, 0, 0⟩] = .error "ValueError: unparsable time" ∧
      mergeOrAppend 100 ⟨some 100, none, 0, 0, 0⟩ [⟨none, none, 0, 0, 0⟩]
        = .error "ValueError: unparsable time" :=
  ⟨rfl, rfl⟩

/-- Claim C6, amended: a record with an unparsable timestamp is excluded
from the stability computation only, silently (removing it does not
change the stability result); but in the prune step such a record raises
an unhandled `ValueError`, failing the run, rather than being processed
or dropped. -/
theorem c6_unparsable_amended (today now : Nat) (e : Observation)
    (l1 l2 : List Observation) (ht : e.time = none) :
    prune now (l1 ++ e :: l2) = .error "ValueError: unparsable time" ∧
      compute_barometric_stability_local today (l1 ++ e :: l2)
        = compute_barometric_stability_local today (l1 ++ l2) := by
  refine ⟨pruneAux_error_of_unparsable _ l1 e l2 ht, ?_⟩
  cases hll : l1 ++ l2 with
  | nil =>
    obtain ⟨h1, h2⟩ := List.append_eq_nil.mp hll
    subst h1
    subst h2
    have hL : compute_barometric_stability_local today ([] ++ e :: [])
        = .ok 0 := by
      unfold compute_barometric_stability_local
      rw [if_neg (by simp), avgsFor_unparsable e [] [] ht,
        show avgsFor ([] ++ ([] : List Observation)) (pastDatesOldestFirst today)
          = .ok [none, none, none, none] from rfl]
      show Except.ok ((countStable [none, none, none, none] : ℚ) / (STABILITY_DAYS : ℚ))
        = Except.ok 0
      rw [show countStable ([none, none, none, none] : List (Option ℚ)) = 0 from rfl]
      simp
    rw [hL]
    rfl
  | cons x xs =>
    unfold compute_barometric_stability_local
    rw [if_neg (by simp), if_neg (by simp), avgsFor_unparsable e l1 l2 ht, hll]

/-- Witness for the amended C6 theorem at a concrete input. -/
theorem c6_witness :
    prune 100 ([] ++ (⟨none, none, 0, 0, 0⟩ : Observation) :: [])
        = .error "ValueError: unparsable time" ∧
      compute_barometric_stability_local 10
          ([] ++ (⟨none, none, 0, 0, 0⟩ : Observation) :: [])
        = compute_barometric_stability_local 10 ([] ++ []) :=
  c6_unparsable_amended 10 100 ⟨none, none, 0, 0, 0⟩ [] [] rfl

theorem tmpPath_ne (path : String) : tmpPath path ≠ path := by
  intro h
  have hlen := congrArg String.length h
  rw [tmpPath, String.length_append] at hlen
  have h4 : (".tmp" : String).length = 4 := rfl
  omega

theorem foldl_preserves_at (p : String) :
    ∀ l : List (FS → FS), (∀ f ∈ l, ∀ s : FS, f s p = s p) →
      ∀ fs : FS, (l.foldl (fun s f => f s) fs) p = fs p := by
  intro l
  induction l with
  | nil => intro _ fs; rfl
  | cons f l ih =>
    intro h fs
    rw [List.foldl_cons, ih (fun g hg => h g (List.mem_cons_of_mem _ hg)) (f fs),
      h f (List.mem_cons_self _ _) fs]

/-- Claim C4: `save_data` is atomic with respect to the final path.  If
a failure interrupts the save after any proper prefix of its filesystem
effects (directory creation, truncating the temporary file, streaming
the serialization into it), the content at the final path is exactly
what it was before — the final path changes only via the concluding
atomic `os.replace`, i.e. only on a fully successful write. -/
theorem c4_save_atomic (path : String) (contents : List String) (fs : FS) (k : Nat)
    (hk : k < (saveSteps path contents).length) :
    applySteps (saveSteps path contents) k fs path = fs path := by
  unfold applySteps
  apply foldl_preserves_at
  intro f hf s
  have hlen : (saveSteps path contents).length = contents.length + 2 := by
    simp [saveSteps]
  cases k with
  | zero => cases hf
  | succ j =>
    rw [show saveSteps path contents
        = (fun fs => fs) :: ((contents.map fun c => fun fs => fsWrite fs (tmpPath path) c)
          ++ [fun fs => fsReplace fs (tmpPath path) path]) from rfl,
      List.take_succ_cons] at hf
    rcases List.mem_cons.mp hf with hid | htail
    · rw [hid]
    · have hj : j ≤ contents.length := by
        rw [hlen] at hk
        omega
      rw [List.take_append_of_le_length (by simpa using hj)] at htail
      have hmem := List.take_subset j _ htail
      obtain ⟨c, _, hc⟩ := List.mem_map.mp hmem
      rw [← hc]
      show fsWrite s (tmpPath path) c path = s path
      unfold fsWrite
      rw [if_neg (Ne.symm (tmpPath_ne path))]

/-- Witness for the C4 theorem: interrupting after 2 of the 4 steps of a
save of two chunks leaves the (initially empty) store unchanged at the
final path. -/
theorem c4_witness :
    applySteps (saveSteps "log.json" ["", "[]"]) 2 (fun _ => none) "log.json"
      = (fun _ => none : FS) "log.json" :=
  c4_save_atomic "log.json" ["", "[]"] (fun _ => none) 2 (by simp [saveSteps])

theorem hourKey_squeeze {a b c : Nat} (hab : a ≤ b) (hbc : b ≤ c)
    (hac : hourKey a = hourKey c) : hourKey b = hourKey c := by
  unfold hourKey at hac ⊢
  have h1 := Nat.div_le_div_right (c := 3600) hab
  have h2 := Nat.div_le_div_right (c := 3600) hbc
  omega

theorem hourOfDay_eq_of_hourKey_eq {a b : Nat} (h : hourKey a = hourKey b) :
    hourOfDay a = hourOfDay b := by
  unfold hourKey at h
  unfold hourOfDay
  rw [h]

/-- Claim C7: the prune-then-merge-or-append write preserves the
per-calendar-hour uniqueness invariant.  For a history with parseable
timestamps, sorted non-decreasing by time, with no two records in the
same UTC calendar hour, and no record later than `now` (the entry's
timestamp), the written history again has no two records in the same UTC
calendar hour. -/
theorem c7_hour_uniqueness (now : Nat) (entry : Observation)
    (hist out : List Observation)
    (hparse : ∀ e ∈ hist, e.time ≠ none)
    (hsorted : hist.Pairwise fun a b => tOf a ≤ tOf b)
    (huniq : hist.Pairwise fun a b => hourKey (tOf a) ≠ hourKey (tOf b))
    (hentry : entry.time = some now)
    (hle : ∀ e ∈ hist, tOf e ≤ now)
    (hout : updateLog now entry hist = .ok out) :
    out.Pairwise fun a b => hourKey (tOf a) ≠ hourKey (tOf b) := by
  have htentry : tOf entry = now := by simp [tOf, hentry]
  unfold updateLog at hout
  rw [show prune now hist
      = .ok (hist.filter fun e => decide (now - KEEP_HOURS * 3600 ≤ tOf e)) from
    pruneAux_eq_filter _ hist hparse] at hout
  set p := hist.filter fun e => decide (now - KEEP_HOURS * 3600 ≤ tOf e) with hpdef
  replace hout : mergeOrAppend now entry p = .ok out := hout
  have hpsl : p.Sublist hist := List.filter_sublist hist
  have hpsub : ∀ {x : Observation}, x ∈ p → x ∈ hist := fun hx => hpsl.subset hx
  have hpsorted : p.Pairwise (fun a b => tOf a ≤ tOf b) :=
    List.Pairwise.sublist hpsl hsorted
  have hpuniq : p.Pairwise (fun a b => hourKey (tOf a) ≠ hourKey (tOf b)) :=
    List.Pairwise.sublist hpsl huniq
  have hple : ∀ e ∈ p, tOf e ≤ now := fun e he => hle e (hpsub he)
  cases hgl : p.getLast? with
  | none =>
    have hpnil : p = [] := List.getLast?_eq_none_iff.mp hgl
    unfold mergeOrAppend at hout
    rw [hgl] at hout
    replace hout : Except.ok (ε := String) (p ++ [entry]) = .ok out := hout
    have hout' := Except.ok.inj hout
    subst hout'
    rw [hpnil, List.nil_append]
    exact List.pairwise_singleton _ _
  | some last =>
    have hpne : p ≠ [] := by
      intro h
      rw [h] at hgl
      simp at hgl
    have hgl' := hgl
    rw [List.getLast?_eq_getLast_of_ne_nil hpne] at hgl'
    injection hgl' with hlasteq
    have hlastmem : last ∈ p := hlasteq ▸ List.getLast_mem hpne
    have hlt : last.time ≠ none := hparse last (hpsub hlastmem)
    obtain ⟨tl, htl⟩ := Option.ne_none_iff_exists'.mp hlt
    have htOfl : tOf last = tl := by simp [tOf, htl]
    rw [mergeOrAppend_of_parsed now entry p tl hpne (by rw [hlasteq]; exact htl)] at hout
    have hout' := Except.ok.inj hout
    subst hout'
    have hsplit : p.dropLast ++ [last] = p := by
      rw [← hlasteq]
      exact List.dropLast_append_getLast hpne
    have hmax : ∀ a ∈ p.dropLast, tOf a ≤ tOf last := by
      have h1 : (p.dropLast ++ [last]).Pairwise (fun a b => tOf a ≤ tOf b) := by
        rw [hsplit]
        exact hpsorted
      intro a ha
      exact (List.pairwise_append.mp h1).2.2 a ha last (List.mem_singleton_self _)
    have huniqlast : ∀ a ∈ p.dropLast, hourKey (tOf a) ≠ hourKey (tOf last) := by
      have h1 : (p.dropLast ++ [last]).Pairwise
          (fun a b => hourKey (tOf a) ≠ hourKey (tOf b)) := by
        rw [hsplit]
        exact hpuniq
      intro a ha
      exact (List.pairwise_append.mp h1).2.2 a ha last (List.mem_singleton_self _)
    have hlast_le : tOf last ≤ now := hple last hlastmem
    by_cases hh : hourOfDay tl = hourOfDay now
    · rw [if_pos hh]
      rw [List.pairwise_append]
      refine ⟨List.Pairwise.sublist (List.dropLast_sublist p) hpuniq,
        List.pairwise_singleton _ _, ?_⟩
      intro a ha b hb
      rw [List.mem_singleton] at hb
      subst hb
      rw [htentry]
      intro hcontra
      apply huniqlast a ha
      have h2 : hourKey (tOf last) = hourKey now :=
        hourKey_squeeze (hmax a ha) hlast_le hcontra
      rw [hcontra, h2]
    · rw [if_neg hh]
      rw [List.pairwise_append]
      refine ⟨hpuniq, List.pairwise_singleton _ _, ?_⟩
      intro a ha b hb
      rw [List.mem_singleton] at hb
      subst hb
      rw [htentry]
      intro hcontra
      apply hh
      have ha' : a ∈ p.dropLast ++ [last] := by
        rw [hsplit]
        exact ha
      have hta : tOf a ≤ tOf last := by
        rcases List.mem_append.mp ha' with hd | hs
        · exact hmax a hd
        · rw [List.mem_singleton] at hs
          rw [hs]
      have h2 : hourKey (tOf last) = hourKey now :=
        hourKey_squeeze hta hlast_le hcontra
      rw [htOfl] at h2
      exact hourOfDay_eq_of_hourKey_eq h2

/-- Witness for the C7 theorem: history with one record at hour 0,
entry at hour 2 of the same day; the entry is appended and the result
still has at most one record per calendar hour. -/
theorem c7_witness :
    ([⟨some 0, none, 0, 0, 0⟩, ⟨some 7200, none, 0, 0, 0⟩] : List Observation).Pairwise
      (fun a b => hourKey (tOf a) ≠ hourKey (tOf b)) :=
  c7_hour_uniqueness 7200 ⟨some 7200, none, 0, 0, 0⟩ [⟨some 0, none, 0, 0, 0⟩]
    [⟨some 0, none, 0, 0, 0⟩, ⟨some 7200, none, 0, 0, 0⟩]
    (by decide) (by decide) (by decide) rfl (by decide) rfl

end CatfishOdds
